import Mathlib

/-!
Verification of the kuma cache-backed job subsystem.

Source files embedded here:
  kuma/wiki/jobs.py  — the concrete job classes (DocumentNearestZoneJob,
    DocumentZoneURLRemapsJob, DocumentContributorsJob, DocumentCodeSampleJob,
    DocumentTagsJob); their fetch, empty, expiry and lifetime bodies are
    translated from the Python source.
The generic engine (KumaJob / GenerationJob in kuma.core.jobs) is not part of
the provided sources; those definitions are modelled from the spec and are
marked as such in their doc comments.

Conventions of the embedding:
  - Database-backed ORM queries become lookups over explicit list-backed
    tables in the `DB` structure.
  - A Python primary key variable that may hold None is an `Option Nat`;
    Python truthiness of such a variable is the `pyTruthy` predicate
    (None and 0 are falsy).
  - A Python function that may raise becomes an `Option`-returning
    function (`none` = exception), noted at each definition.
  - `random.randint(a, b)` (inclusive on both ends) is modelled by
    `randint a b seed` for an arbitrary draw `seed`; `time.time()` is an
    abstract `now : Nat` in seconds.
-/

/-! ## Wiki data model (kuma/wiki/models, as used by jobs.py) -/

/-- A wiki document row: primary key, optional topic parent pk, locale and
slug (the latter two are used by the URL-remap job). -/
structure Document where
  pk : Nat
  parent_topic : Option Nat
  locale : String
  slug : String
deriving Repr, DecidableEq

/-- A DocumentZone row: the document it is attached to and its optional
url_root (NULL is `none`). -/
structure DocumentZone where
  document : Nat
  url_root : Option String
deriving Repr, DecidableEq

/-- A revision row of some document: creation timestamp (seconds) and the
id of the user who created it. -/
structure Revision where
  created : Nat
  creator_id : Nat
deriving Repr, DecidableEq

/-- A user account row, with the fields the contributors job reads. -/
structure User where
  id : Nat
  username : String
  email : String
  is_active : Bool
deriving Repr, DecidableEq

/-- The database visible to the job fetch bodies. `revisions` pairs each
revision with the pk of the document it belongs to. -/
structure DB where
  documents : List Document
  zones : List DocumentZone
  revisions : List (Nat × Revision)
  users : List User
deriving Repr

/-- Python truthiness of a pk variable that may hold None: None and 0 are
falsy, every other integer is truthy (the `while pk:` guard). -/
def pyTruthy : Option Nat → Bool
  | none => false
  | some n => n != 0

/-- DocumentZone.objects.get(document=pk): first zone row attached to the
given document pk, if any. -/
def findZone (db : DB) (pk : Nat) : Option DocumentZone :=
  db.zones.find? (fun z => z.document == pk)

/-- Document.admin_objects.values_list(parent_topic).get(pk=pk): `none` when
no document row has this pk (Document.DoesNotExist), otherwise the row's
parent_topic column (itself possibly NULL). admin_objects does not filter
deleted documents, so the table here is the full document table. -/
def lookupParent (db : DB) (pk : Nat) : Option (Option Nat) :=
  (db.documents.find? (fun d => d.pk == pk)).map (fun d => d.parent_topic)

/-! ## DocumentNearestZoneJob.fetch -/

/-- Outcome of the parent-chain walk. `dbError` models the uncaught
Document.DoesNotExist raised by the parent lookup; `outOfFuel` means the
walk did not finish within the given number of parent-following steps
(the Python loop has no such bound — fuel makes the embedding total). -/
inductive FetchResult where
  | found (z : DocumentZone)
  | empty
  | dbError
  | outOfFuel
deriving Repr, DecidableEq

/-- DocumentNearestZoneJob.fetch(pk): while pk is truthy, return the zone
attached to pk if one exists, else step to the parent; falling out of the
loop returns the job's empty sentinel (None — the `empty` constructor).
Fuel bounds the number of loop iterations; a run that exhausts it reports
outOfFuel instead of looping forever. -/
def DocumentNearestZoneJob.fetchLoop (db : DB) : Nat → Option Nat → FetchResult
  | 0, pk => if pyTruthy pk then .outOfFuel else .empty
  | fuel + 1, pk =>
    match pk with
    | none => .empty
    | some n =>
      if n = 0 then .empty
      else
        match findZone db n with
        | some z => .found z
        | none =>
          match lookupParent db n with
          | some p => DocumentNearestZoneJob.fetchLoop db fuel p
          | none => .dbError

/-! ## Jittered expiry and lifetime -/

/-- Seconds in a day, as computed in jobs.py (24 * 60 * 60). -/
def seconds_per_day : Nat := 24 * 60 * 60

/-- random.randint(a, b): uniform integer with a <= result <= b, modelled
over an arbitrary draw `seed`. Requires a <= b, as in Python. -/
def randint (a b seed : Nat) : Nat := a + seed % (b - a + 1)

/-- DocumentNearestZoneJob.expiry: time.time() + randint(1 day, 10 days),
with `now` the current clock reading in seconds and `seed` the draw. -/
def DocumentNearestZoneJob.expiry (now seed : Nat) : Nat :=
  now + randint (1 * seconds_per_day) (10 * seconds_per_day) seed

/-- DocumentTagsJob.lifetime: randint(1 day, 10 days) — the tags job
jitters its lifetime attribute rather than overriding expiry(). -/
def DocumentTagsJob.lifetime (seed : Nat) : Nat :=
  randint (1 * seconds_per_day) (10 * seconds_per_day) seed

/-! ## DocumentContributorsJob.fetch -/

/-- A contributor record as returned by the job: the user values dict
('id', 'username', 'email') augmented with the derived 'gravatar_34'
avatar URL. -/
structure Contributor where
  id : Nat
  username : String
  email : String
  gravatar_34 : String
deriving Repr, DecidableEq

/-- document.revisions.order_by('-created').values_list('creator_id'):
the document's revisions sorted by descending creation time, projected
to their creator ids. -/
def recentCreatorIds (db : DB) (pk : Nat) : List Nat :=
  (((db.revisions.filter (fun r => r.1 == pk)).map Prod.snd).insertionSort
      (fun a b => a.created ≥ b.created)).map Revision.creator_id

/-- First-occurrence deduplication of an id list: the order produced by
MySQL FIELD(id, ids...) over the distinct ids, since FIELD reports the
position of the first occurrence. -/
def dedupFirst : List Nat → List Nat :=
  go []
where
  go (seen : List Nat) : List Nat → List Nat
    | [] => []
    | x :: xs => if seen.contains x then go seen xs else x :: go (x :: seen) xs

/-- A user's values dict augmented with gravatar_34 =
gravatar_url(email, size=34), the loop body of the fetch. The gravatar
helper is external to the excerpt and passed in as `gravatar`. -/
def mkContributor (gravatar : String → String) (u : User) : Contributor :=
  { id := u.id, username := u.username, email := u.email,
    gravatar_34 := gravatar u.email }

/-- One row of the ordered re-query
User.objects.filter(id__in=ids, is_active=True) for a given id: `none`
when no active user has this id (the SQL filter drops the row). -/
def activeContributor (gravatar : String → String) (db : DB) (i : Nat) :
    Option Contributor :=
  match db.users.find? (fun u => u.id == i) with
  | some u => if u.is_active then some (mkContributor gravatar u) else none
  | none => none

/-- DocumentContributorsJob.fetch(pk): `none` models the uncaught
Document.DoesNotExist when the document row is missing. Otherwise: the
recent creator ids; empty list when there are none; else the active users
among those ids, one row per distinct id, ordered by FIELD(id, ids...)
(first-occurrence order), each augmented with the gravatar_34 URL. -/
def DocumentContributorsJob.fetch (gravatar : String → String) (db : DB)
    (pk : Nat) : Option (List Contributor) :=
  match db.documents.find? (fun d => d.pk == pk) with
  | none => none
  | some _ =>
      let ids := recentCreatorIds db pk
      if ids.isEmpty then some []
      else some ((dedupFirst ids).filterMap (activeContributor gravatar db))

/-! ## DocumentZoneURLRemapsJob and DocumentCodeSampleJob -/

/-- The slug of a document by pk (empty string when absent; only applied to
pks that exist, via the ORM join). -/
def docSlug (db : DB) (pk : Nat) : String :=
  ((db.documents.find? (fun d => d.pk == pk)).map Document.slug).getD ""

/-- DocumentZoneURLRemapsJob.fetch(locale): zones whose document has the
given locale and whose url_root is non-NULL and non-empty, mapped to
('/docs/' + slug, '/' + url_root) pairs. -/
def DocumentZoneURLRemapsJob.fetch (db : DB) (locale : String) :
    List (String × String) :=
  (db.zones.filter (fun z =>
      (match db.documents.find? (fun d => d.pk == z.document) with
       | some d => d.locale == locale
       | none => false)
      && (match z.url_root with
          | some r => r != ""
          | none => false))).map
    (fun z => ("/docs/" ++ docSlug db z.document, "/" ++ z.url_root.getD ""))

/-- DocumentZoneURLRemapsJob.empty: an empty list instead of None. -/
def DocumentZoneURLRemapsJob.emptyValue : List (String × String) := []

/-- DocumentCodeSampleJob.empty: an empty mapping, embedded as an empty
association list. -/
def DocumentCodeSampleJob.emptyValue : List (String × String) := []

/-! ## The generic job engine

Modelled from the spec: KumaJob / GenerationJob and the CacheStore live in
kuma.core.jobs, which is not part of the provided sources; the definitions
in this section follow spec sections 3, 4.1-4.4 and 6. -/

/-- Modelled from the spec: a job policy (spec section 3, JobPolicy, plus
the JobKey namespace/version and the fetch callback contract of section 6).
`fetch` returning `none` models a Python fetch returning None, which the
engine normalizes to the policy's empty value. `argsKey` is the canonical
serialization of the positional arguments. -/
structure Job (A V : Type) where
  namespaceName : String
  version : Nat
  fetchOnMiss : Bool
  emptyValue : V
  fetch : A → Option V
  argsKey : A → String

/-- Modelled from the spec: the CacheStore state (spec section 4.1) plus
the RefreshScheduler queue (section 4.4): cached entries keyed by the
derived key string, the set of held per-key locks, and the queue of
scheduled deferred refreshes. Expiry is not modelled: the claims below all
concern runs with no intervening expiry. -/
structure Store (A V : Type) where
  cache : List (String × V)
  locks : List String
  deferred : List (String × A)

/-- The store with nothing cached, no lock held and nothing scheduled. -/
def Store.initial (A V : Type) : Store A V :=
  { cache := [], locks := [], deferred := [] }

/-- Modelled from the spec: JobKey derivation (spec section 4.2),
namespace, version and canonical args joined into one string. -/
def mkKey {A V : Type} (job : Job A V) (a : A) : String :=
  job.namespaceName ++ ":" ++ toString job.version ++ ":" ++ job.argsKey a

/-- Modelled from the spec: CacheStore.get — a hit returns the entry
(which may be the cached empty sentinel), a miss returns none. -/
def readCache {A V : Type} (st : Store A V) (key : String) : Option V :=
  st.cache.lookup key

/-- Modelled from the spec: CacheStore.try_acquire_lock — atomic; exactly
one caller observes success while the key is locked. Returns whether the
lock was acquired together with the updated store. -/
def tryLock {A V : Type} (st : Store A V) (key : String) :
    Bool × Store A V :=
  if st.locks.contains key then (false, st)
  else (true, { st with locks := key :: st.locks })

/-- Modelled from the spec: the critical section run by a lock holder
(spec section 4.3.3.a): call the fetch callback, normalize a nil result to
the policy's empty value, store the result, release the lock. Returns the
freshly computed value with the updated store. -/
def fetchStoreRelease {A V : Type} (job : Job A V) (st : Store A V)
    (key : String) (a : A) : V × Store A V :=
  let v := (job.fetch a).getD job.emptyValue
  (v, { st with cache := (key, v) :: st.cache, locks := st.locks.erase key })

/-- Modelled from the spec: RefreshScheduler.schedule (spec section 4.4) —
enqueue a deferred refresh of the given key/args without blocking. -/
def scheduleDeferred {A V : Type} (st : Store A V) (key : String) (a : A) :
    Store A V :=
  { st with deferred := (key, a) :: st.deferred }

/-- Result of one Job.get call: the value handed to the caller, the store
afterwards, and whether the fetch callback ran on the caller's path. -/
structure GetResult (A V : Type) where
  value : V
  store : Store A V
  fetched : Bool

/-- Modelled from the spec: Job.get run to completion without interference
(spec section 4.3): hit returns the cached value; on a miss with
fetch_on_miss true, try the per-key lock — fetch/store/release when
acquired, immediately return the empty value when not; on a miss with
fetch_on_miss false, schedule a deferred refresh and return the empty
value. -/
def Job.get {A V : Type} (job : Job A V) (st : Store A V) (a : A) :
    GetResult A V :=
  let key := mkKey job a
  match readCache st key with
  | some v => { value := v, store := st, fetched := false }
  | none =>
    if job.fetchOnMiss then
      let l := tryLock st key
      if l.1 then
        let r := fetchStoreRelease job l.2 key a
        { value := r.1, store := r.2, fetched := true }
      else { value := job.emptyValue, store := st, fetched := false }
    else
      { value := job.emptyValue, store := scheduleDeferred st key a,
        fetched := false }

/-- Modelled from the spec: the deferred task runner (spec section 4.4) —
execute the head of the queue with the same locking discipline as the
synchronous path: acquire the key's lock, fetch-store-release; skip when
another worker holds the lock. -/
def runDeferred {A V : Type} (job : Job A V) (st : Store A V) : Store A V :=
  match st.deferred with
  | [] => st
  | (key, a) :: rest =>
      let st0 : Store A V :=
        { cache := st.cache, locks := st.locks, deferred := rest }
      let l := tryLock st0 key
      if l.1 then (fetchStoreRelease job l.2 key a).2 else st0

/-! ## Concurrent callers as interleaved atomic steps

Modelled from the spec (section 5): multiple workers call get for the same
key; each caller performs its cache read, its lock attempt and (for the
lock winner) its fetch-store-release as separate atomic steps against the
shared store, so distinct callers' steps interleave. -/

/-- The program counter of one caller inside Job.get: not started, read a
miss, holding the lock, or finished with a value. -/
inductive CallerState (V : Type) where
  | start
  | missed
  | locked
  | done (v : V)
deriving Repr, DecidableEq

/-- One atomic step of one caller of Job.get, against the shared store.
The Nat accumulator counts executions of the fetch callback. -/
def stepCaller {A V : Type} (job : Job A V) (a : A)
    (σ : Store A V × Nat) (c : CallerState V) :
    (Store A V × Nat) × CallerState V :=
  let key := mkKey job a
  match c with
  | .start =>
      match readCache σ.1 key with
      | some v => (σ, .done v)
      | none =>
          if job.fetchOnMiss then (σ, .missed)
          else ((scheduleDeferred σ.1 key a, σ.2), .done job.emptyValue)
  | .missed =>
      let l := tryLock σ.1 key
      if l.1 then ((l.2, σ.2), .locked)
      else (σ, .done job.emptyValue)
  | .locked =>
      let r := fetchStoreRelease job σ.1 key a
      ((r.2, σ.2 + 1), .done r.1)
  | .done v => (σ, .done v)

/-- One scheduling round: each caller in the list takes exactly one atomic
step, in list order, threading the shared store. -/
def runRound {A V : Type} (job : Job A V) (a : A) :
    Store A V × Nat → List (CallerState V) →
    (Store A V × Nat) × List (CallerState V)
  | σ, [] => (σ, [])
  | σ, c :: cs =>
      let r := stepCaller job a σ c
      let rest := runRound job a r.1 cs
      (rest.1, r.2 :: rest.2)

/-- N simultaneous get calls for the same args: every caller's cache read
happens before any lock attempt, every lock attempt happens while the
winner still holds the lock, then the winner completes — three rounds of
one atomic step per caller. -/
def simulGet {A V : Type} (job : Job A V) (a : A) (st : Store A V)
    (n : Nat) : (Store A V × Nat) × List (CallerState V) :=
  let r1 := runRound job a (st, 0) (List.replicate n .start)
  let r2 := runRound job a r1.1 r1.2
  runRound job a r2.1 r2.2

/-! ## Concrete job instances wired to the engine -/

/-- DocumentNearestZoneJob as an engine job: fetch_on_miss defaults to
true, the inherited empty sentinel is None (here: the `none` of an
Option-valued cache entry). The walk runs with fuel bounded by the number
of document rows plus one, enough for any acyclic chain. -/
def documentNearestZoneJob (db : DB) : Job Nat (Option DocumentZone) :=
  { namespaceName := "kuma.wiki.jobs.DocumentNearestZoneJob"
    version := 1
    fetchOnMiss := true
    emptyValue := none
    fetch := fun pk =>
      match DocumentNearestZoneJob.fetchLoop db (db.documents.length + 1)
          (some pk) with
      | .found z => some (some z)
      | _ => some none
    argsKey := toString }

/-- DocumentContributorsJob as an engine job: version 2 and
fetch_on_miss = false, as declared in the source. -/
def documentContributorsJob (gravatar : String → String) (db : DB) :
    Job Nat (List Contributor) :=
  { namespaceName := "kuma.wiki.jobs.DocumentContributorsJob"
    version := 2
    fetchOnMiss := false
    emptyValue := []
    fetch := fun pk => DocumentContributorsJob.fetch gravatar db pk
    argsKey := toString }

/-- DocumentContributorsJob.get: in maintenance mode return the empty
value without touching the cache, otherwise run the engine's get. -/
def DocumentContributorsJob.get (maintenanceMode : Bool)
    (gravatar : String → String) (db : DB)
    (st : Store Nat (List Contributor)) (pk : Nat) :
    GetResult Nat (List Contributor) :=
  if maintenanceMode then { value := [], store := st, fetched := false }
  else (documentContributorsJob gravatar db).get st pk

/-- DocumentZoneURLRemapsJob as an engine job: fetch_on_miss defaults to
true, empty is the empty list. -/
def documentZoneURLRemapsJob (db : DB) : Job String (List (String × String)) :=
  { namespaceName := "kuma.wiki.jobs.DocumentZoneURLRemapsJob"
    version := 1
    fetchOnMiss := true
    emptyValue := DocumentZoneURLRemapsJob.emptyValue
    fetch := fun locale => some (DocumentZoneURLRemapsJob.fetch db locale)
    argsKey := id }

/-- DocumentCodeSampleJob as an engine job. The code_sample extraction
(document.extract.code_sample) is external to the excerpt and passed in as
`codeSample`; a missing document raises, hence the Option bind. The
GenerationJob key also carries a generation component, irrelevant to the
claims settled here. -/
def documentCodeSampleJob
    (codeSample : Nat → String → Option (List (String × String)))
    (db : DB) : Job (Nat × String) (List (String × String)) :=
  { namespaceName := "kuma.wiki.jobs.DocumentCodeSampleJob"
    version := 1
    fetchOnMiss := true
    emptyValue := DocumentCodeSampleJob.emptyValue
    fetch := fun pa =>
      (db.documents.find? (fun d => d.pk == pa.1)).bind
        (fun _ => codeSample pa.1 pa.2)
    argsKey := fun pa => toString pa.1 ++ ":" ++ pa.2 }

/-! ## Concrete fixtures for witnesses and scenario claims -/

/-- The zone record attached to document C (pk 3) in the chain scenario. -/
def zoneC : DocumentZone := { document := 3, url_root := some "zone-c" }

/-- The entity chain A(1) -> B(2) -> C(3), C has no parent; only C has an
associated zone record. -/
def dbChainABC : DB :=
  { documents :=
      [ { pk := 1, parent_topic := some 2, locale := "en-US", slug := "A" },
        { pk := 2, parent_topic := some 3, locale := "en-US", slug := "B" },
        { pk := 3, parent_topic := none, locale := "en-US", slug := "C" } ]
    zones := [zoneC]
    revisions := []
    users := [] }

/-- The same chain with no zone anywhere in the ancestry. -/
def dbChainNoZone : DB :=
  { documents := dbChainABC.documents
    zones := []
    revisions := []
    users := [] }

/-- A ranking certificate of acyclicity for the parent-link graph: every
parent edge strictly lowers the rank. A finite parent graph is acyclic
exactly when such a ranking exists. -/
def rankOk (db : DB) (rank : Nat → Nat) : Bool :=
  db.documents.all (fun d =>
    match d.parent_topic with
    | some p => rank p < rank d.pk
    | none => true)

/-! ## Theorems -/

/-- C6: every duration produced by the jittered 1-10-day policies lies
between 1 day and 10 days inclusive, for every outcome of the random draw:
DocumentNearestZoneJob.expiry is between now + 1 day and now + 10 days,
and DocumentTagsJob.lifetime (the tags job jitters its lifetime attribute)
is between 1 day and 10 days. -/
theorem c6_jittered_durations_bounded (now seed : Nat) :
    (now + 1 * seconds_per_day ≤ DocumentNearestZoneJob.expiry now seed ∧
      DocumentNearestZoneJob.expiry now seed ≤ now + 10 * seconds_per_day) ∧
    (1 * seconds_per_day ≤ DocumentTagsJob.lifetime seed ∧
      DocumentTagsJob.lifetime seed ≤ 10 * seconds_per_day) := by
  have h : seed % (10 * seconds_per_day - 1 * seconds_per_day + 1) <
      10 * seconds_per_day - 1 * seconds_per_day + 1 :=
    Nat.mod_lt _ (by norm_num [seconds_per_day])
  simp only [DocumentNearestZoneJob.expiry, DocumentTagsJob.lifetime, randint,
    seconds_per_day] at h ⊢
  omega

/-- C10: a falsy starting pk (None or 0) makes the parent-chain loop body
never execute: the walk returns the empty sentinel immediately, for every
database and every fuel, touching neither the zone table nor the parent
table. -/
theorem c10_falsy_pk_returns_empty (db : DB) (fuel : Nat) :
    DocumentNearestZoneJob.fetchLoop db fuel none = .empty ∧
    DocumentNearestZoneJob.fetchLoop db fuel (some 0) = .empty := by
  constructor
  · cases fuel <;> rfl
  · cases fuel <;> rfl

/-- Unfolding Job.get on a cache hit. -/
theorem Job.get_hit {A V : Type} (job : Job A V) (st : Store A V) (a : A)
    (v : V) (hc : readCache st (mkKey job a) = some v) :
    job.get st a = { value := v, store := st, fetched := false } := by
  simp only [Job.get]
  rw [hc]

/-- Unfolding Job.get on a miss with fetch_on_miss = false: empty value,
deferred refresh scheduled, no fetch on the caller's path. -/
theorem Job.get_deferred {A V : Type} (job : Job A V) (st : Store A V)
    (a : A) (hc : readCache st (mkKey job a) = none)
    (hf : job.fetchOnMiss = false) :
    job.get st a =
      { value := job.emptyValue,
        store := scheduleDeferred st (mkKey job a) a, fetched := false } := by
  simp only [Job.get]
  rw [hc, hf]
  simp

/-- Unfolding Job.get on a miss with fetch_on_miss = true while another
worker holds the key's lock: the empty value is returned immediately and
the store is untouched. -/
theorem Job.get_lockBusy {A V : Type} (job : Job A V) (st : Store A V)
    (a : A) (hc : readCache st (mkKey job a) = none)
    (hf : job.fetchOnMiss = true)
    (hl : mkKey job a ∈ st.locks) :
    job.get st a =
      { value := job.emptyValue, store := st, fetched := false } := by
  simp only [Job.get]
  rw [hc, hf]
  simp [tryLock, hl]

/-- Unfolding Job.get on a miss with fetch_on_miss = true and the lock
free: the caller fetches, stores and releases, returning the fresh
value. -/
theorem Job.get_lockAcquired {A V : Type} (job : Job A V) (st : Store A V)
    (a : A) (hc : readCache st (mkKey job a) = none)
    (hf : job.fetchOnMiss = true)
    (hl : mkKey job a ∉ st.locks) :
    job.get st a =
      { value := (job.fetch a).getD job.emptyValue,
        store :=
          { cache := (mkKey job a, (job.fetch a).getD job.emptyValue) ::
              st.cache,
            locks := st.locks,
            deferred := st.deferred },
        fetched := true } := by
  simp only [Job.get]
  rw [hc, hf]
  simp [tryLock, hl, fetchStoreRelease, List.erase_cons_head]

/-- Reading a key just stored at the head of the cache hits it. -/
theorem readCache_cons_self {A V : Type} (st : Store A V) (key : String)
    (v : V) (locks : List String) (deferred : List (String × A)) :
    readCache
      { cache := (key, v) :: st.cache, locks := locks,
        deferred := deferred } key = some v := by
  simp [readCache, List.lookup]

/-- C1: calling Job.get twice with the same arguments and no intervening
expiry or invalidation returns identical values, and the fetch callback
runs at most once across the two calls. -/
theorem c1_get_memoization {A V : Type} (job : Job A V) (st : Store A V)
    (a : A) :
    (job.get (job.get st a).store a).value = (job.get st a).value ∧
    ¬((job.get st a).fetched = true ∧
      (job.get (job.get st a).store a).fetched = true) := by
  cases hc : readCache st (mkKey job a) with
  | some v =>
    rw [Job.get_hit job st a v hc]
    rw [Job.get_hit job st a v hc]
    simp
  | none =>
    cases hf : job.fetchOnMiss with
    | false =>
      rw [Job.get_deferred job st a hc hf]
      have hc2 : readCache (scheduleDeferred st (mkKey job a) a)
          (mkKey job a) = none := by
        simpa [readCache, scheduleDeferred] using hc
      rw [Job.get_deferred job _ a hc2 hf]
      simp
    | true =>
      by_cases hl : mkKey job a ∈ st.locks
      · rw [Job.get_lockBusy job st a hc hf hl]
        rw [Job.get_lockBusy job st a hc hf hl]
        simp
      · rw [Job.get_lockAcquired job st a hc hf hl]
        rw [Job.get_hit job _ a _ (readCache_cons_self st (mkKey job a) _ _ _)]
        simp

/-- The walk returns empty from a falsy (None) pk, whatever the fuel. -/
theorem fetchLoop_none (db : DB) (fuel : Nat) :
    DocumentNearestZoneJob.fetchLoop db fuel none = .empty := by
  cases fuel <;> rfl

/-- C3: the parent-chain walk finds the nearest zone: on the chain
A(1) -> B(2) -> C(3) where only C has a zone record, fetch starting at A
returns C's zone (for any sufficient fuel); on the same chain with no zone
anywhere in the ancestry it returns the empty sentinel; and Job.get on a
cold store returns C's zone for key A. -/
theorem c3_zone_chain_walk :
    (∀ fuel, DocumentNearestZoneJob.fetchLoop dbChainABC (fuel + 3) (some 1) =
      .found zoneC) ∧
    (∀ fuel, DocumentNearestZoneJob.fetchLoop dbChainNoZone (fuel + 3) (some 1) =
      .empty) ∧
    ((documentNearestZoneJob dbChainABC).get
      (Store.initial Nat (Option DocumentZone)) 1).value = some zoneC := by
  refine ⟨fun fuel => rfl, fun fuel => ?_, rfl⟩
  have h : DocumentNearestZoneJob.fetchLoop dbChainNoZone (fuel + 3) (some 1) =
      DocumentNearestZoneJob.fetchLoop dbChainNoZone fuel none := rfl
  rw [h, fetchLoop_none]

/-- Any ranking certificate bounds the walk: with fuel above the start's
rank the walk never runs out of fuel. -/
theorem fetchLoop_no_outOfFuel (db : DB) (rank : Nat → Nat)
    (h : rankOk db rank = true) :
    ∀ n opk, (∀ a, opk = some a → rank a < n) →
      DocumentNearestZoneJob.fetchLoop db n opk ≠ .outOfFuel := by
  intro n
  induction n with
  | zero =>
    intro opk hlt
    cases opk with
    | none => simp [DocumentNearestZoneJob.fetchLoop, pyTruthy]
    | some a => exact absurd (hlt a rfl) (Nat.not_lt_zero _)
  | succ n ih =>
    intro opk hlt
    cases opk with
    | none => simp [DocumentNearestZoneJob.fetchLoop]
    | some a =>
      rw [DocumentNearestZoneJob.fetchLoop]
      by_cases ha : a = 0
      · simp [ha]
      · simp only [ha, if_false]
        cases hz : findZone db a with
        | some z => simp [hz]
        | none =>
          cases hp : lookupParent db a with
          | none => simp [hz, hp]
          | some p =>
            simp only [hz, hp]
            apply ih
            intro b hb
            subst hb
            obtain ⟨d, hd, hdp⟩ := Option.map_eq_some'.mp hp
            have hmem : d ∈ db.documents := List.mem_of_find?_eq_some hd
            have hpk : d.pk = a := by
              have hb := List.find?_some hd
              exact beq_iff_eq.mp hb
            have hall := List.all_eq_true.mp h d hmem
            rw [hdp] at hall
            have hrb : rank b < rank d.pk := of_decide_eq_true hall
            rw [hpk] at hrb
            have hra : rank a < n + 1 := hlt a rfl
            omega

/-- C8: the parent-chain walk terminates for every starting document whose
topic-parent chain is acyclic. Acyclicity is certified by a ranking
function that strictly decreases along every parent edge (for a finite
parent graph such a ranking exists exactly when there is no cycle); under
it the walk completes within rank + 1 iterations, so it never reports
outOfFuel — it reaches a zone, a chain end, or a missing row in finitely
many steps. No cycle protection exists in the loop itself, hence the
ranking hypothesis. -/
theorem c8_acyclic_chain_terminates (db : DB) (rank : Nat → Nat) (pk : Nat)
    (h : rankOk db rank = true) :
    DocumentNearestZoneJob.fetchLoop db (rank pk + 1) (some pk) ≠
      .outOfFuel :=
  fetchLoop_no_outOfFuel db rank h (rank pk + 1) (some pk)
    (fun a ha => by cases ha; omega)

/-- Witness for C8 on the concrete acyclic chain A -> B -> C with the
ranking 3 - pk. -/
theorem c8_acyclic_chain_terminates_witness :
    DocumentNearestZoneJob.fetchLoop dbChainABC ((fun n => 3 - n) 1 + 1)
      (some 1) ≠ .outOfFuel :=
  c8_acyclic_chain_terminates dbChainABC (fun n => 3 - n) 1 (by decide)

/-- C9: every contributor record returned by DocumentContributorsJob.fetch
belongs to an active user account — inactive creators are omitted even
when their ids appear in the recent-creator ordering. -/
theorem c9_contributors_active_only (gravatar : String → String) (db : DB)
    (pk : Nat) (l : List Contributor)
    (h : DocumentContributorsJob.fetch gravatar db pk = some l) :
    ∀ c ∈ l, ∃ u ∈ db.users, u.id = c.id ∧ u.is_active = true := by
  intro c hc
  unfold DocumentContributorsJob.fetch at h
  cases hd : db.documents.find? (fun d => d.pk == pk) with
  | none => rw [hd] at h; exact absurd h (by simp)
  | some d =>
    rw [hd] at h
    by_cases he : (recentCreatorIds db pk).isEmpty
    · rw [if_pos he] at h
      have hl : l = [] := by injection h with h2; exact h2.symm
      subst hl
      exact absurd hc (by simp)
    · rw [if_neg he] at h
      have hl : l = (dedupFirst (recentCreatorIds db pk)).filterMap
          (activeContributor gravatar db) := by
        injection h with h2; exact h2.symm
      subst hl
      obtain ⟨i, hi, hact⟩ := List.mem_filterMap.mp hc
      unfold activeContributor at hact
      cases hu : db.users.find? (fun u => u.id == i) with
      | none => rw [hu] at hact; exact absurd hact (by simp)
      | some u =>
        rw [hu] at hact
        simp only at hact
        by_cases hia : u.is_active
        · rw [if_pos hia] at hact
          have heq : c.id = u.id := by
            injection hact with h2
            rw [← h2]
            rfl
          exact ⟨u, List.mem_of_find?_eq_some hu, heq.symm, hia⟩
        · rw [if_neg hia] at hact
          exact absurd hact (by simp)

/-- C4: for a document whose revisions in descending creation order have
creator ids [7, 3, 7, 9] (all three users active), fetch returns the
contributor records in first-occurrence order [7, 3, 9], each augmented
with the derived avatar URL; and for a document with no revisions the
result is the empty list, not nil. -/
theorem c4_contributors_order_and_avatar (gravatar : String → String)
    (db : DB) (pk : Nat) (d : Document) (u7 u3 u9 : User)
    (hd : db.documents.find? (fun x => x.pk == pk) = some d)
    (hids : recentCreatorIds db pk = [7, 3, 7, 9])
    (hu7 : db.users.find? (fun x => x.id == 7) = some u7)
    (ha7 : u7.is_active = true)
    (hu3 : db.users.find? (fun x => x.id == 3) = some u3)
    (ha3 : u3.is_active = true)
    (hu9 : db.users.find? (fun x => x.id == 9) = some u9)
    (ha9 : u9.is_active = true) :
    (∃ l, DocumentContributorsJob.fetch gravatar db pk = some l ∧
      l.map Contributor.id = [7, 3, 9] ∧
      ∀ c ∈ l, c.gravatar_34 = gravatar c.email) ∧
    ∀ (db2 : DB) (pk2 : Nat) (d2 : Document),
      db2.documents.find? (fun x => x.pk == pk2) = some d2 →
      recentCreatorIds db2 pk2 = [] →
      DocumentContributorsJob.fetch gravatar db2 pk2 = some [] := by
  have b7 := List.find?_some hu7
  have b3 := List.find?_some hu3
  have b9 := List.find?_some hu9
  have i7 : u7.id = 7 := beq_iff_eq.mp b7
  have i3 : u3.id = 3 := beq_iff_eq.mp b3
  have i9 : u9.id = 9 := beq_iff_eq.mp b9
  have e7 : activeContributor gravatar db 7 = some (mkContributor gravatar u7) := by
    unfold activeContributor
    rw [hu7]
    simp [ha7]
  have e3 : activeContributor gravatar db 3 = some (mkContributor gravatar u3) := by
    unfold activeContributor
    rw [hu3]
    simp [ha3]
  have e9 : activeContributor gravatar db 9 = some (mkContributor gravatar u9) := by
    unfold activeContributor
    rw [hu9]
    simp [ha9]
  constructor
  · refine ⟨[mkContributor gravatar u7, mkContributor gravatar u3,
        mkContributor gravatar u9], ?_, ?_, ?_⟩
    · unfold DocumentContributorsJob.fetch
      rw [hd]
      simp only [hids]
      have hdedup : dedupFirst [7, 3, 7, 9] = [7, 3, 9] := rfl
      simp [hdedup, List.filterMap, e7, e3, e9]
    · simp [mkContributor, i7, i3, i9]
    · intro c hc
      simp only [List.mem_cons, List.not_mem_nil, or_false] at hc
      rcases hc with h | h | h <;> subst h <;> rfl
  · intro db2 pk2 d2 hd2 hids2
    unfold DocumentContributorsJob.fetch
    rw [hd2]
    simp [hids2]

/-- A gravatar helper used by the concrete witnesses. -/
def gravatarFx : String → String := fun e => "avatar:" ++ e

/-- A document (pk 10) with revisions by creators [7, 3, 7, 9] in
descending creation order, all three users active; document 11 has no
revisions. -/
def dbContrib : DB :=
  { documents :=
      [ { pk := 10, parent_topic := none, locale := "en-US", slug := "doc" },
        { pk := 11, parent_topic := none, locale := "en-US", slug := "doc2" } ]
    zones := []
    revisions :=
      [ (10, { created := 100, creator_id := 7 }),
        (10, { created := 90, creator_id := 3 }),
        (10, { created := 80, creator_id := 7 }),
        (10, { created := 70, creator_id := 9 }) ]
    users :=
      [ { id := 7, username := "u7", email := "e7", is_active := true },
        { id := 3, username := "u3", email := "e3", is_active := true },
        { id := 9, username := "u9", email := "e9", is_active := true } ] }

/-- dbContrib extended with a revision by user 5, whose account is
inactive: the fetched contributor list omits user 5. -/
def dbContrib9 : DB :=
  { documents := dbContrib.documents
    zones := []
    revisions := dbContrib.revisions ++ [(10, { created := 60, creator_id := 5 })]
    users := dbContrib.users ++
      [ { id := 5, username := "u5", email := "e5", is_active := false } ] }

/-- Witness for C4 on dbContrib: document 10 gives records [7, 3, 9] with
avatar URLs, document 11 (no revisions) gives []. -/
theorem c4_contributors_order_and_avatar_witness :
    (∃ l, DocumentContributorsJob.fetch gravatarFx dbContrib 10 = some l ∧
      l.map Contributor.id = [7, 3, 9] ∧
      ∀ c ∈ l, c.gravatar_34 = gravatarFx c.email) ∧
    ∀ (db2 : DB) (pk2 : Nat) (d2 : Document),
      db2.documents.find? (fun x => x.pk == pk2) = some d2 →
      recentCreatorIds db2 pk2 = [] →
      DocumentContributorsJob.fetch gravatarFx db2 pk2 = some [] :=
  c4_contributors_order_and_avatar gravatarFx dbContrib 10
    { pk := 10, parent_topic := none, locale := "en-US", slug := "doc" }
    { id := 7, username := "u7", email := "e7", is_active := true }
    { id := 3, username := "u3", email := "e3", is_active := true }
    { id := 9, username := "u9", email := "e9", is_active := true }
    rfl rfl rfl rfl rfl rfl rfl rfl

/-- Witness for C9 on dbContrib9, at the first returned contributor:
despite the revision by inactive user 5, every row of the fetched list
belongs to an active account. -/
theorem c9_contributors_active_only_witness :
    ∃ u ∈ dbContrib9.users,
      u.id = ({ id := 7, username := "u7", email := "e7",
                gravatar_34 := "avatar:e7" } : Contributor).id ∧
      u.is_active = true :=
  c9_contributors_active_only gravatarFx dbContrib9 10
    [ { id := 7, username := "u7", email := "e7", gravatar_34 := "avatar:e7" },
      { id := 3, username := "u3", email := "e3", gravatar_34 := "avatar:e3" },
      { id := 9, username := "u9", email := "e9", gravatar_34 := "avatar:e9" } ]
    (by rfl)
    { id := 7, username := "u7", email := "e7", gravatar_34 := "avatar:e7" }
    (by simp)

/-- C5: DocumentContributorsJob declares fetch_on_miss = false, so (out of
maintenance mode) a cold-key get returns the empty list immediately
without running fetch on the caller's path and schedules a deferred
refresh; once the deferred task runs, a subsequent get returns the fetched
value. -/
theorem c5_contributors_deferred (gravatar : String → String) (db : DB)
    (st : Store Nat (List Contributor)) (pk : Nat) (l : List Contributor)
    (hcold : readCache st (mkKey (documentContributorsJob gravatar db) pk) =
      none)
    (hunlocked : mkKey (documentContributorsJob gravatar db) pk ∉ st.locks)
    (hfetch : DocumentContributorsJob.fetch gravatar db pk = some l) :
    (documentContributorsJob gravatar db).fetchOnMiss = false ∧
    (DocumentContributorsJob.get false gravatar db st pk).value = [] ∧
    (DocumentContributorsJob.get false gravatar db st pk).fetched = false ∧
    (DocumentContributorsJob.get false gravatar db st pk).store.deferred =
      (mkKey (documentContributorsJob gravatar db) pk, pk) :: st.deferred ∧
    (DocumentContributorsJob.get false gravatar db
      (runDeferred (documentContributorsJob gravatar db)
        (DocumentContributorsJob.get false gravatar db st pk).store)
      pk).value = l := by
  set J := documentContributorsJob gravatar db with hJ
  set key := mkKey J pk with hkey
  have hf : J.fetchOnMiss = false := rfl
  have hget : J.get st pk =
      { value := J.emptyValue, store := scheduleDeferred st key pk,
        fetched := false } := Job.get_deferred J st pk hcold hf
  have hwrap : DocumentContributorsJob.get false gravatar db st pk =
      J.get st pk := rfl
  refine ⟨hf, ?_, ?_, ?_, ?_⟩
  · rw [hwrap, hget]
    rfl
  · rw [hwrap, hget]
  · rw [hwrap, hget]
    rfl
  · rw [hwrap, hget]
    have hrun : runDeferred J (scheduleDeferred st key pk) =
        { cache := (key, (J.fetch pk).getD J.emptyValue) :: st.cache,
          locks := st.locks, deferred := st.deferred } := by
      simp [runDeferred, scheduleDeferred, tryLock, hunlocked,
        fetchStoreRelease, List.erase_cons_head]
    rw [show DocumentContributorsJob.get false gravatar db
        (runDeferred J (scheduleDeferred st key pk)) pk =
        J.get (runDeferred J (scheduleDeferred st key pk)) pk from rfl]
    rw [hrun]
    have hv : (J.fetch pk).getD J.emptyValue = l := by
      show (DocumentContributorsJob.fetch gravatar db pk).getD [] = l
      rw [hfetch]
      rfl
    rw [Job.get_hit J _ pk _ (readCache_cons_self st key _ _ _)]
    exact hv

/-- Witness for C5 on dbContrib, document 10, starting from the empty
store. -/
theorem c5_contributors_deferred_witness :
    (documentContributorsJob gravatarFx dbContrib).fetchOnMiss = false ∧
    (DocumentContributorsJob.get false gravatarFx dbContrib
      (Store.initial Nat (List Contributor)) 10).value = [] ∧
    (DocumentContributorsJob.get false gravatarFx dbContrib
      (Store.initial Nat (List Contributor)) 10).fetched = false ∧
    (DocumentContributorsJob.get false gravatarFx dbContrib
      (Store.initial Nat (List Contributor)) 10).store.deferred =
      (mkKey (documentContributorsJob gravatarFx dbContrib) 10, 10) ::
        (Store.initial Nat (List Contributor)).deferred ∧
    (DocumentContributorsJob.get false gravatarFx dbContrib
      (runDeferred (documentContributorsJob gravatarFx dbContrib)
        (DocumentContributorsJob.get false gravatarFx dbContrib
          (Store.initial Nat (List Contributor)) 10).store)
      10).value =
      [ { id := 7, username := "u7", email := "e7", gravatar_34 := "avatar:e7" },
        { id := 3, username := "u3", email := "e3", gravatar_34 := "avatar:e3" },
        { id := 9, username := "u9", email := "e9", gravatar_34 := "avatar:e9" } ] :=
  c5_contributors_deferred gravatarFx dbContrib
    (Store.initial Nat (List Contributor)) 10
    [ { id := 7, username := "u7", email := "e7", gravatar_34 := "avatar:e7" },
      { id := 3, username := "u3", email := "e3", gravatar_34 := "avatar:e3" },
      { id := 9, username := "u9", email := "e9", gravatar_34 := "avatar:e9" } ]
    rfl (by simp [Store.initial]) rfl

/-- C7: each concrete job's empty sentinel is a typed empty container —
DocumentZoneURLRemapsJob.empty is the empty list and
DocumentCodeSampleJob.empty is the empty mapping — and on a cold key whose
lock another worker holds, get returns exactly that empty value for these
jobs. -/
theorem c7_empty_sentinels (db : DB)
    (cs : Nat → String → Option (List (String × String)))
    (st1 : Store String (List (String × String))) (locale : String)
    (st2 : Store (Nat × String) (List (String × String))) (pk : Nat)
    (sampleName : String)
    (h1c : readCache st1 (mkKey (documentZoneURLRemapsJob db) locale) = none)
    (h1l : mkKey (documentZoneURLRemapsJob db) locale ∈ st1.locks)
    (h2c : readCache st2
      (mkKey (documentCodeSampleJob cs db) (pk, sampleName)) = none)
    (h2l : mkKey (documentCodeSampleJob cs db) (pk, sampleName) ∈
      st2.locks) :
    DocumentZoneURLRemapsJob.emptyValue = ([] : List (String × String)) ∧
    DocumentCodeSampleJob.emptyValue = ([] : List (String × String)) ∧
    ((documentZoneURLRemapsJob db).get st1 locale).value =
      DocumentZoneURLRemapsJob.emptyValue ∧
    ((documentCodeSampleJob cs db).get st2 (pk, sampleName)).value =
      DocumentCodeSampleJob.emptyValue := by
  refine ⟨rfl, rfl, ?_, ?_⟩
  · rw [Job.get_lockBusy _ st1 locale h1c rfl h1l]
    rfl
  · rw [Job.get_lockBusy _ st2 (pk, sampleName) h2c rfl h2l]
    rfl

/-- Witness for C7: both lock-held cold stores built explicitly. -/
theorem c7_empty_sentinels_witness :
    DocumentZoneURLRemapsJob.emptyValue = ([] : List (String × String)) ∧
    DocumentCodeSampleJob.emptyValue = ([] : List (String × String)) ∧
    ((documentZoneURLRemapsJob dbContrib).get
      { cache := [],
        locks := [mkKey (documentZoneURLRemapsJob dbContrib) "en-US"],
        deferred := [] } "en-US").value =
      DocumentZoneURLRemapsJob.emptyValue ∧
    ((documentCodeSampleJob (fun _ _ => none) dbContrib).get
      { cache := [],
        locks := [mkKey (documentCodeSampleJob
          (fun _ _ => (none : Option (List (String × String)))) dbContrib)
          (10, "sample")],
        deferred := [] } (10, "sample")).value =
      DocumentCodeSampleJob.emptyValue :=
  c7_empty_sentinels dbContrib (fun _ _ => none)
    { cache := [],
      locks := [mkKey (documentZoneURLRemapsJob dbContrib) "en-US"],
      deferred := [] } "en-US"
    { cache := [],
      locks := [mkKey (documentCodeSampleJob
        (fun _ _ => (none : Option (List (String × String)))) dbContrib)
        (10, "sample")],
      deferred := [] } 10 "sample"
    rfl (by simp) rfl (by simp)

/-- Round 1 of the simultaneous run: on a cold key every caller's read is
a miss and the store is unchanged. -/
theorem runRound_start_miss {A V : Type} (job : Job A V) (a : A)
    (st : Store A V) (c : Nat)
    (hc : readCache st (mkKey job a) = none) (hf : job.fetchOnMiss = true) :
    ∀ n, runRound job a (st, c) (List.replicate n .start) =
      ((st, c), List.replicate n .missed) := by
  intro n
  induction n with
  | zero => rfl
  | succ n ih =>
    simp [List.replicate_succ, runRound, stepCaller, hc, hf, ih]

/-- While the key's lock is held, every lock attempt fails: each such
caller finishes immediately with the job's empty value. -/
theorem runRound_missed_lockHeld {A V : Type} (job : Job A V) (a : A)
    (st : Store A V) (c : Nat) (hl : mkKey job a ∈ st.locks) :
    ∀ n, runRound job a (st, c) (List.replicate n .missed) =
      ((st, c), List.replicate n (.done job.emptyValue)) := by
  intro n
  induction n with
  | zero => rfl
  | succ n ih =>
    simp [List.replicate_succ, runRound, stepCaller, tryLock, hl, ih]

/-- Round 2: with the lock free, the first caller to try acquires it; the
rest, whose attempts land while it is held, finish with the empty
value. -/
theorem runRound_missed_winner {A V : Type} (job : Job A V) (a : A)
    (st : Store A V) (c : Nat) (hl : mkKey job a ∉ st.locks) (m : Nat) :
    runRound job a (st, c) (.missed :: List.replicate m .missed) =
      (({ st with locks := mkKey job a :: st.locks }, c),
        .locked :: List.replicate m (.done job.emptyValue)) := by
  have hstep : stepCaller job a (st, c) (.missed) =
      (({ st with locks := mkKey job a :: st.locks }, c), .locked) := by
    simp [stepCaller, tryLock, hl]
  have hheld : mkKey job a ∈
      ({ st with locks := mkKey job a :: st.locks } : Store A V).locks := by
    simp
  simp [runRound, hstep,
    runRound_missed_lockHeld job a _ c hheld m]

/-- A finished caller's step is a no-op. -/
theorem runRound_all_done {A V : Type} (job : Job A V) (a : A)
    (σ : Store A V × Nat) (e : V) :
    ∀ m, runRound job a σ (List.replicate m (.done e)) =
      (σ, List.replicate m (.done e)) := by
  intro m
  induction m with
  | zero => rfl
  | succ m ih =>
    simp [List.replicate_succ, runRound, stepCaller, ih]

/-- Round 3: the lock holder fetches, stores and releases — the one fetch
execution of the run — and finishes with the fresh value. -/
theorem runRound_winner_completes {A V : Type} (job : Job A V) (a : A)
    (st : Store A V) (c : Nat) (e : V) (m : Nat) :
    runRound job a (st, c) (.locked :: List.replicate m (.done e)) =
      (((fetchStoreRelease job st (mkKey job a) a).2, c + 1),
        .done ((job.fetch a).getD job.emptyValue) ::
          List.replicate m (.done e)) := by
  have hstep : stepCaller job a (st, c) (.locked) =
      (((fetchStoreRelease job st (mkKey job a) a).2, c + 1),
        .done ((job.fetch a).getD job.emptyValue)) := by
    simp [stepCaller, fetchStoreRelease]
  simp [runRound, hstep, runRound_all_done]

/-- C2: for a fetch_on_miss = true job, when m + 1 callers simultaneously
invoke get for the same cold, unlocked key, the fetch callback executes
exactly once: the lock winner returns the freshly fetched value and the
other m callers each receive the job's empty value immediately. -/
theorem c2_single_flight {A V : Type} (job : Job A V) (st : Store A V)
    (a : A) (m : Nat)
    (hf : job.fetchOnMiss = true)
    (hc : readCache st (mkKey job a) = none)
    (hl : mkKey job a ∉ st.locks) :
    (simulGet job a st (m + 1)).2 =
      .done ((job.fetch a).getD job.emptyValue) ::
        List.replicate m (.done job.emptyValue) ∧
    (simulGet job a st (m + 1)).1.2 = 1 := by
  unfold simulGet
  rw [runRound_start_miss job a st 0 hc hf (m + 1)]
  dsimp only
  rw [show List.replicate (m + 1) (CallerState.missed (V := V)) =
    .missed :: List.replicate m .missed from List.replicate_succ ..]
  rw [runRound_missed_winner job a st 0 hl m]
  dsimp only
  rw [runRound_winner_completes job a _ 0 job.emptyValue m]
  exact ⟨rfl, rfl⟩

/-- A small synchronous job used by the C2 witness. -/
def natJobFx : Job Nat Nat :=
  { namespaceName := "fixture.natJob"
    version := 1
    fetchOnMiss := true
    emptyValue := 0
    fetch := fun n => some (n + 1)
    argsKey := toString }

/-- Witness for C2: three simultaneous callers on a cold key — one fetch,
the winner gets 6, the two losers get the empty value 0. -/
theorem c2_single_flight_witness :
    (simulGet natJobFx 5 (Store.initial Nat Nat) (2 + 1)).2 =
      .done 6 :: List.replicate 2 (.done 0) ∧
    (simulGet natJobFx 5 (Store.initial Nat Nat) (2 + 1)).1.2 = 1 :=
  c2_single_flight natJobFx (Store.initial Nat Nat) 5 2 rfl rfl
    (by simp [Store.initial])
